import Mathlib

/-!
Verification of the gong-cloud MCP server core services against their
natural-language specification.

The development shallowly embeds the four core components — the user
directory cache and speaker resolver (`src/services/user-service.ts`),
the transcript formatter (`src/services/transcript-service.ts`) and the
call catalog (`src/services/call-service.ts`) — as pure Lean functions.
The external Gong API accessor (`src/api/client.ts`) is modelled as a
record of predetermined `Except` outcomes, one per accessor operation,
and the services' `async`/`await` sequencing becomes explicit state
passing of the user-cache state.  JavaScript string and truthiness
semantics are modelled by dedicated helpers below.
-/

namespace GongCloud

/-! ### JavaScript-style string and truthiness helpers -/

/-- `s.substring(0, n)`: the first `n` characters of `s`. -/
def takeStr (n : Nat) (s : String) : String := String.mk (s.toList.take n)

/-- `s.toLowerCase()` (ASCII-level model). -/
def lowerStr (s : String) : String := String.mk (s.toList.map Char.toLower)

/-- Is `pre` a prefix of the character list? -/
def isPrefixL : List Char → List Char → Bool
  | [], _ => true
  | _ :: _, [] => false
  | a :: as, b :: bs => a == b && isPrefixL as bs

/-- Does the character list contain `needle` as a contiguous run? -/
def isInfixL (needle : List Char) : List Char → Bool
  | [] => isPrefixL needle []
  | c :: hs => isPrefixL needle (c :: hs) || isInfixL needle hs

/-- `hay.includes(needle)`. -/
def strIncludes (hay needle : String) : Bool := isInfixL needle.toList hay.toList

/-- `s.split(c)` on a single-character separator. -/
def splitChar (c : Char) : List Char → List (List Char)
  | [] => [[]]
  | a :: as =>
    let r := splitChar c as
    if a == c then [] :: r
    else
      match r with
      | [] => [[a]]
      | x :: xs => (a :: x) :: xs

/-- `s.split(' ')` returning strings. -/
def splitSpaces (s : String) : List String := (splitChar ' ' s.toList).map String.mk

/-- The part of `cs` before the first occurrence of `c` (`s.split(c)[0]`). -/
def beforeChar (c : Char) : List Char → List Char
  | [] => []
  | a :: as => if a == c then [] else a :: beforeChar c as

/-- The part of the string before the first occurrence of the separator
`" - "` used in time ranges (`s.split(' - ')[0]`). -/
def beforeDashSep : List Char → List Char
  | ' ' :: '-' :: ' ' :: _ => []
  | a :: as => a :: beforeDashSep as
  | [] => []

/-- Code-unit lexicographic `≤` on character lists; models the ordering
induced by `String.prototype.localeCompare` on the ASCII time strings
compared by the section sort. -/
def lexLe : List Char → List Char → Bool
  | [], _ => true
  | _ :: _, [] => false
  | a :: as, b :: bs =>
    if a.val < b.val then true
    else if b.val < a.val then false
    else lexLe as bs

/-- JavaScript truthiness of a possibly-missing string field:
`undefined` and `""` are falsy. -/
def jsTruthy : Option String → Bool
  | some s => s != ""
  | none => false

/-- `a || b` where `a` is a possibly-missing string field. -/
def jsOr (a : Option String) (b : String) : String :=
  match a with
  | some s => if s = "" then b else s
  | none => b

/-- `a || b` where `a` is a present string. -/
def jsOrS (a b : String) : String := if a = "" then b else a

/-- `a || b` where both sides are possibly-missing string fields. -/
def jsOrOpt (a b : Option String) : Option String :=
  match a with
  | some s => if s = "" then b else some s
  | none => b

/-- `s.trim()` (space-level model). -/
def trimStr (s : String) : String :=
  String.mk (((s.toList.dropWhile (· == ' ')).reverse.dropWhile (· == ' ')).reverse)

/-- `list.join(' ')`. -/
def joinSpace : List String → String
  | [] => ""
  | [s] => s
  | s :: rest => s ++ " " ++ joinSpace rest

/-- Decimal rendering of a natural number. -/
def natStr (n : Nat) : String := toString n

/-- `n.toString().padStart(2, '0')`. -/
def pad2 (n : Nat) : String := if n < 10 then "0" ++ natStr n else natStr n

/-! ### Association-list maps

JavaScript `Map`s and plain objects used as dictionaries are modelled as
insertion-ordered association lists: assigning an existing key updates it
in place, a new key is appended. -/

/-- Object/`Map` assignment `m[k] = v` / `m.set(k, v)`. -/
def mapSet (m : List (String × α)) (k : String) (v : α) : List (String × α) :=
  if m.any (fun p => p.1 == k) then
    m.map (fun p => if p.1 == k then (k, v) else p)
  else m ++ [(k, v)]

/-- Object/`Map` lookup `m[k]` / `m.get(k)`. -/
def mapLookup (m : List (String × α)) (k : String) : Option α :=
  (m.find? (fun p => p.1 == k)).map (fun p => p.2)

/-- Key-membership test. -/
def mapHas (m : List (String × α)) (k : String) : Bool :=
  (mapLookup m k).isSome

/-! ### Data model (from `src/models/types.ts` and the dynamic response
shapes consumed by the services) -/

/-- A raw user record as returned by the paginated `/v2/users` fetch;
each field may be absent. -/
structure RawUser where
  id : String
  firstName : Option String := none
  lastName : Option String := none
  emailAddress : Option String := none
  email : Option String := none
  title : Option String := none
  role : Option String := none
  active : Option Bool := none
  created : Option String := none
deriving DecidableEq, Repr

/-- A normalized `GongUser` produced by `UserService.processUser`. -/
structure GongUser where
  id : String
  firstName : String
  lastName : String
  emailAddress : String
  title : String
  active : Bool
  created : String
deriving DecidableEq, Repr

/-- A call participant (`GongParticipant`); every field may be absent. -/
structure Participant where
  id : Option String := none
  name : Option String := none
  firstName : Option String := none
  lastName : Option String := none
  email : Option String := none
  role : Option String := none
  company : Option String := none
deriving DecidableEq, Repr

/-- One transcript sentence (`start` in milliseconds). -/
structure Sentence where
  start : Nat
  text : String
deriving DecidableEq, Repr

/-- One raw transcript segment. -/
structure Segment where
  speakerId : String
  topic : Option String := none
  sentences : List Sentence := []
deriving DecidableEq, Repr

/-- A resolved speaker record. -/
structure Speaker where
  id : String
  name : String
  email : Option String := none
  role : Option String := none
  company : Option String := none
deriving DecidableEq, Repr

/-- Per-call speaker map keyed by transcript speaker id. -/
def SpeakerMap : Type := List (String × Speaker)

instance : DecidableEq SpeakerMap := by
  unfold SpeakerMap
  infer_instance

/-- The raw call record inside the `getCall(id)` accessor response. -/
structure CallDetails where
  id : String
  title : Option String := none
  scheduled : Option String := none
  started : Option String := none
  startTime : Option String := none
  duration : Option Nat := none
  direction : Option String := none
  system : Option String := none
  scope : Option String := none
  media : Option String := none
  language : Option String := none
  url : Option String := none
  transcript : Option (List Segment) := none
  participants : Option (List Participant) := none
deriving DecidableEq, Repr

/-- The `getCall(id)` accessor response (`{ call }`). -/
structure CallResp where
  call : CallDetails
deriving DecidableEq, Repr

/-- One entry of the `callTranscripts` array of the transcript response. -/
structure CallTranscriptEntry where
  transcript : Option (List Segment) := none
deriving DecidableEq, Repr

/-- The `getTranscripts(ids)` accessor response.  The accessor (the Gong
`POST /v2/calls/transcript` endpoint, `src/api/client.ts`) populates only
`callTranscripts`; the `transcripts` field is carried because
`UserService.getSpeakerMap` reads it. -/
structure TranscriptsResp where
  transcripts : Option (List Segment) := none
  callTranscripts : Option (List CallTranscriptEntry) := none
deriving DecidableEq, Repr

instance {ε α : Type} [DecidableEq ε] [DecidableEq α] :
    DecidableEq (Except ε α) := fun a b =>
  match a, b with
  | Except.error e, Except.error f =>
    if h : e = f then isTrue (by rw [h]) else isFalse (by simp [h])
  | Except.error _, Except.ok _ => isFalse (by simp)
  | Except.ok _, Except.error _ => isFalse (by simp)
  | Except.ok x, Except.ok y =>
    if h : x = y then isTrue (by rw [h]) else isFalse (by simp [h])

/-- Predetermined outcomes of the three accessor operations consumed by
one request's resolution chain. -/
structure ApiOutcomes where
  callResult : Except String CallResp
  transcriptsResult : Except String TranscriptsResp
  usersResult : Except String (List RawUser)
deriving DecidableEq, Repr

/-- The user directory cache state of a `UserService` instance. -/
structure CacheState where
  userCache : List (String × GongUser)
  lastCacheUpdate : Nat
deriving DecidableEq, Repr

/-! ### UserService (`src/services/user-service.ts`) -/

/-- `cacheExpiryMs = 1000 * 60 * 60`. -/
def cacheExpiryMs : Nat := 1000 * 60 * 60

/-- `UserService.processUser`: standardize a raw user record. -/
def processUser (u : RawUser) : GongUser :=
  { id := u.id
    firstName := jsOr u.firstName ""
    lastName := jsOr u.lastName ""
    emailAddress := jsOr u.emailAddress (jsOr u.email "")
    title := jsOr u.title (jsOr u.role "")
    active := u.active != some false
    created := jsOr u.created "" }

/-- Rebuilding the user cache from a fetched batch: `userCache.clear()`
followed by `userCache.set(user.id, user)` for each processed user. -/
def buildCacheList (raw : List RawUser) : List (String × GongUser) :=
  (raw.map processUser).foldl (fun c u => mapSet c u.id u) []

/-- The cache-validity guard of `getAllUsers`: `userCache.size > 0 &&
(now - lastCacheUpdate) < cacheExpiryMs`. -/
def servesFromCache (now : Nat) (st : CacheState) : Bool :=
  decide (st.userCache.length > 0) && decide (now - st.lastCacheUpdate < cacheExpiryMs)

/-- `UserService.getAllUsers(forceRefresh)`.  `now` is `Date.now()` at
entry, `fetchResult` the outcome of the paginated accessor fetch.  The
returned `Bool` records whether the accessor was invoked. -/
def getAllUsersRun (forceRefresh : Bool) (now : Nat)
    (fetchResult : Except String (List RawUser)) (st : CacheState) :
    Except String (List GongUser × CacheState × Bool) :=
  if !forceRefresh && servesFromCache now st then
    Except.ok (st.userCache.map Prod.snd, st, false)
  else
    match fetchResult with
    | Except.error e => Except.error e
    | Except.ok rawUsers =>
      Except.ok (rawUsers.map processUser, ⟨buildCacheList rawUsers, now⟩, true)

/-- The filter predicate of `UserService.findUsers`. -/
def findPred (name email id : Option String) (u : GongUser) : Bool :=
  if jsTruthy id && u.id == id.getD "" then true
  else if jsTruthy name then
    let fullName := lowerStr (u.firstName ++ " " ++ u.lastName)
    let searchName := lowerStr (name.getD "")
    if strIncludes fullName searchName then true
    else
      (splitSpaces searchName).any (fun part =>
        strIncludes (lowerStr u.firstName) part ||
        strIncludes (lowerStr u.lastName) part)
  else if jsTruthy email && u.emailAddress != "" &&
      strIncludes (lowerStr u.emailAddress) (lowerStr (email.getD "")) then true
  else false

/-- `UserService.findUsers(name?, email?, id?)`. -/
def findUsersRun (name email id : Option String) (now : Nat)
    (fetchResult : Except String (List RawUser)) (st : CacheState) :
    Except String (List GongUser × CacheState) :=
  match getAllUsersRun false now fetchResult st with
  | Except.error e => Except.error e
  | Except.ok (allUsers, st2, _) =>
    let hit : Option GongUser :=
      if jsTruthy id then mapLookup st2.userCache (id.getD "") else none
    match hit with
    | some u => Except.ok ([u], st2)
    | none => Except.ok (allUsers.filter (findPred name email id), st2)

/-- The speaker built from a call participant with non-empty id `i`
(step 2 of `getSpeakerMap`). -/
def participantSpeaker (p : Participant) (i : String) : Speaker :=
  { id := i
    name := jsOr p.name
      (jsOrS (trimStr (jsOr p.firstName "" ++ " " ++ jsOr p.lastName ""))
        ("Person " ++ takeStr 4 i))
    email := p.email
    role := p.role
    company := p.company }

/-- The speaker built from a directory user (steps 4–5 of
`getSpeakerMap`). -/
def userSpeaker (u : GongUser) : Speaker :=
  { id := u.id
    name := jsOrS (trimStr (u.firstName ++ " " ++ u.lastName))
      (jsOrS u.emailAddress ("User " ++ takeStr 4 u.id))
    email := some u.emailAddress
    role := some u.title
    company := some "Unknown" }

/-- Collect the distinct truthy `speakerId`s of the segment list in
first-seen order (the JavaScript `Set` of step 3 of `getSpeakerMap`). -/
def collectSpeakerIds (segs : List Segment) : List String :=
  segs.foldl
    (fun acc s =>
      if s.speakerId = "" then acc
      else if acc.contains s.speakerId then acc
      else acc ++ [s.speakerId])
    []

/-- The body of `UserService.getSpeakerMap` up to its `catch`: the
sequence of fallible steps inside the `try` block. -/
def getSpeakerMapAux (callDetails : Option CallDetails) (api : ApiOutcomes)
    (now : Nat) (st : CacheState) :
    Except String (SpeakerMap × CacheState) := do
  -- Step 1: fetch call details if not provided
  let cd : CallDetails ←
    match callDetails with
    | some c => Except.ok c
    | none => do
      let r ← api.callResult
      Except.ok r.call
  let participants := cd.participants.getD []
  -- Step 2: seed the map from participants with truthy ids
  let seeded : SpeakerMap := participants.foldl
    (fun m p =>
      match p.id with
      | some i => if i = "" then m else mapSet m i (participantSpeaker p i)
      | none => m)
    []
  -- Step 3: fetch the transcript and collect speaker ids.  The code reads
  -- the `transcripts` field of the response (`transcriptResponse.transcripts
  -- || []`), not the `callTranscripts` field the accessor populates.
  let tr ← api.transcriptsResult
  let speakerIds := collectSpeakerIds (tr.transcripts.getD [])
  -- Step 4: load the directory and build the auxiliary user map
  let r ← getAllUsersRun false now api.usersResult st
  let (allUsers, st2, _) := r
  let userMap : SpeakerMap :=
    allUsers.foldl (fun m u => mapSet m u.id (userSpeaker u)) []
  -- Step 5: resolve ids missing from the seeded map via cache, then user map
  let missing := speakerIds.filter (fun i => !(mapHas seeded i))
  let resolved : SpeakerMap := missing.foldl
    (fun m i =>
      match mapLookup st2.userCache i with
      | some u => mapSet m i (userSpeaker u)
      | none =>
        match mapLookup userMap i with
        | some s => mapSet m i s
        | none => m)
    seeded
  -- Step 6: placeholders for any remaining missing speakers
  let full : SpeakerMap := speakerIds.foldl
    (fun m i =>
      if mapHas m i then m
      else mapSet m i
        { id := i
          name := "Person " ++ takeStr 4 i
          company := some "Unknown" })
    resolved
  Except.ok (full, st2)

/-- `UserService.getSpeakerMap(callId, callDetails?)`: never throws; the
`catch` converts any internal failure into an empty map.  No accessor
failure mutates the cache, so the state is returned unchanged then. -/
def getSpeakerMapRun (callDetails : Option CallDetails) (api : ApiOutcomes)
    (now : Nat) (st : CacheState) : SpeakerMap × CacheState :=
  match getSpeakerMapAux callDetails api now st with
  | Except.ok r => r
  | Except.error _ => ([], st)

/-! ### TranscriptService (`src/services/transcript-service.ts`) -/

/-- `TranscriptService.formatMilliseconds`: `mm:ss` with unpadded minutes
and zero-padded seconds. -/
def formatMilliseconds (ms : Nat) : String :=
  natStr (ms / 60000) ++ ":" ++ pad2 (ms % 60000 / 1000)

/-- A processed sentence (annotated with its formatted timestamp). -/
structure ProcSentence where
  start : Nat
  text : String
  timestamp : String
deriving DecidableEq, Repr

/-- The speaker slice rendered into formatter output. -/
structure FmtSpeaker where
  name : String
  company : Option String := none
  role : Option String := none
deriving DecidableEq, Repr

/-- A processed transcript segment (`TranscriptService.processSegment`
output). -/
structure ProcSegment where
  speakerId : String
  speaker : FmtSpeaker
  topic : String
  sentences : List ProcSentence
deriving DecidableEq, Repr

/-- `TranscriptService.processSegment`: resolve the segment's speaker via
the speaker map, falling back to the formatter-local placeholder, and
annotate each sentence with its timestamp. -/
def processSegment (sm : SpeakerMap) (seg : Segment) : ProcSegment :=
  let speaker : Speaker :=
    match mapLookup sm seg.speakerId with
    | some s => s
    | none =>
      { id := seg.speakerId
        name := "Speaker " ++ takeStr 8 seg.speakerId
        company := some "Unknown"
        role := some "Unknown" }
  { speakerId := seg.speakerId
    speaker := { name := speaker.name, company := speaker.company, role := speaker.role }
    topic := jsOr seg.topic ""
    sentences := seg.sentences.map (fun s =>
      { start := s.start, text := s.text, timestamp := formatMilliseconds s.start }) }

/-- The call header of the raw-format output. -/
structure RawCallInfo where
  id : String
  title : Option String
  date : String
  duration : String
deriving DecidableEq, Repr

/-- The raw-format output (`format = "raw"`). -/
structure RawOut where
  call : RawCallInfo
  transcript : List ProcSegment
deriving DecidableEq, Repr

/-- A participant as rendered into the formatted call header. -/
structure FmtParticipant where
  name : String
  company : String
  role : String
deriving DecidableEq, Repr

/-- The call header of the formatted output. -/
structure FmtCallInfo where
  id : String
  title : Option String
  date : String
  duration : Option String
  participants : Option (List FmtParticipant)
deriving DecidableEq, Repr

/-- One exchange: a speaker plus the concatenated text of one segment. -/
structure Exchange where
  speaker : FmtSpeaker
  text : String
  timestamp : Option String
deriving DecidableEq, Repr

/-- One topic section of the formatted transcript. -/
structure TSection where
  topic : String
  timeRange : String
  exchanges : List Exchange
deriving DecidableEq, Repr

/-- The formatted transcript (`format = "concise" | "full"`). -/
structure FormattedTranscript where
  call : FmtCallInfo
  sections : List TSection
deriving DecidableEq, Repr

/-- The transcript output formats. -/
inductive TFormat where
  | concise
  | full
  | raw
deriving DecidableEq, Repr

/-- The result of `getFormattedTranscript`: raw or formatted shape. -/
inductive TranscriptOut where
  | raw (r : RawOut)
  | formatted (f : FormattedTranscript)
deriving DecidableEq, Repr

/-- `maxSegments`/`maxSentences`-style truncation: truncate to `n` from
the start when `n > 0` and the list is longer. -/
def truncList (n : Nat) (l : List α) : List α :=
  if decide (n > 0) && decide (l.length > n) then l.take n else l

/-- The default topic label of a segment (`segment.topic || 'Untitled
Topic'`). -/
def topicOf (s : Segment) : String := jsOr s.topic "Untitled Topic"

/-- Append segment `s` to the group of topic `t`, creating the group at
the end when absent — the JavaScript object used as `topicGroups`. -/
def insertGrouped (t : String) (s : Segment) :
    List (String × List Segment) → List (String × List Segment)
  | [] => [(t, [s])]
  | (t2, ss) :: rest =>
    if t2 = t then (t2, ss ++ [s]) :: rest
    else (t2, ss) :: insertGrouped t s rest

/-- Group segments by topic, preserving first-seen topic order and the
original order of segments within a topic. -/
def groupByTopic (segs : List Segment) : List (String × List Segment) :=
  segs.foldl (fun acc s => insertGrouped (topicOf s) s acc) []

/-- The time range of one topic group: `min`/`max` of all sentence starts,
formatted `mm:ss - mm:ss`.  On an empty spread `Math.min()`/`Math.max()`
yield `Infinity`/`-Infinity`, rendered as below. -/
def sectionTimeRange (topicSegs : List Segment) : String :=
  let starts := (topicSegs.map (fun s => s.sentences.map (fun sen => sen.start))).flatten
  match starts with
  | [] => "Infinity:NaN - -Infinity:NaN"
  | a :: rest =>
    formatMilliseconds (rest.foldl Nat.min a) ++ " - " ++
      formatMilliseconds (rest.foldl Nat.max a)

/-- Build the exchange of one segment: resolved speaker, sentence list
truncated to `maxSentences`, texts joined by a single space, timestamp of
the first remaining sentence. -/
def mkExchange (sm : SpeakerMap) (maxSentences : Nat) (seg : Segment) : Exchange :=
  let ps := processSegment sm seg
  let sentences := truncList maxSentences ps.sentences
  { speaker := ps.speaker
    text := joinSpace (sentences.map (fun s => s.text))
    timestamp := sentences.head?.map (fun s => s.timestamp) }

/-- Build the section of one topic group. -/
def mkSection (sm : SpeakerMap) (maxSentences : Nat)
    (g : String × List Segment) : TSection :=
  { topic := g.1
    timeRange := sectionTimeRange g.2
    exchanges := g.2.map (mkExchange sm maxSentences) }

/-- The sort key of a section: `timeRange.split(' - ')[0]`. -/
def sectionSortKey (sec : TSection) : List Char :=
  beforeDashSep sec.timeRange.toList

/-- The section comparator: ascending by the lexicographic comparison of
the time-range start strings. -/
def secLe (a b : TSection) : Bool := lexLe (sectionSortKey a) (sectionSortKey b)

/-- Insert into a sorted section list, before the first element not
strictly smaller — together with `sortSections` this is a stable sort,
agreeing with `Array.prototype.sort` (stable) under the comparator. -/
def insertSorted (x : TSection) : List TSection → List TSection
  | [] => [x]
  | y :: ys => if secLe x y then x :: y :: ys else y :: insertSorted x ys

/-- Stable sort of the section list by time-range start. -/
def sortSections : List TSection → List TSection
  | [] => []
  | x :: xs => insertSorted x (sortSections xs)

/-- The date string fed to `new Date(call.startTime || call.scheduled ||
'')`; the ISO re-rendering of the date is modelled as the identity on the
raw string. -/
def dateStr (call : CallDetails) : String :=
  jsOr call.startTime (jsOr call.scheduled "")

/-- A participant of the formatted call header. -/
def fmtParticipant (p : Participant) : FmtParticipant :=
  { name := jsOr p.name
      (jsOrS (trimStr (jsOr p.firstName "" ++ " " ++ jsOr p.lastName "")) "Unknown")
    company := jsOr p.company "Unknown"
    role := jsOr p.role "Unknown" }

/-- Build the raw-format output. -/
def buildRaw (call : CallDetails) (sm : SpeakerMap) (segs : List Segment) : RawOut :=
  { call :=
      { id := call.id
        title := call.title
        date := dateStr call
        duration :=
          match call.duration with
          | some d => formatMilliseconds (d * 1000)
          | none => "NaN:NaN" }
    transcript := segs.map (processSegment sm) }

/-- Build the formatted (grouped) output. -/
def buildFormatted (call : CallDetails) (sm : SpeakerMap) (segs : List Segment)
    (maxSegments maxSentences : Nat) : FormattedTranscript :=
  { call :=
      { id := call.id
        title := call.title
        date := String.mk (beforeChar 'T' (dateStr call).toList)
        duration :=
          match call.duration with
          | some d =>
            if d = 0 then none
            else some (natStr (d / 60) ++ "m " ++ natStr (d % 60) ++ "s")
          | none => none
        participants := call.participants.map (fun ps => ps.map fmtParticipant) }
    sections :=
      sortSections (((groupByTopic (truncList maxSegments segs)).map
        (mkSection sm maxSentences))) }

/-- Extract the segment list from the transcript response the way
`getFormattedTranscript` does: `callTranscripts[0].transcript || []` when
`callTranscripts` is a non-empty array, else `[]`. -/
def extractCallTranscript (tr : TranscriptsResp) : List Segment :=
  match tr.callTranscripts with
  | some (ct :: _) => ct.transcript.getD []
  | _ => []

/-- `TranscriptService.getFormattedTranscript(callId, format, maxSegments,
maxSentences)`: fetches the call and transcript (fail-loud), resolves the
speaker map (fail-soft), and renders raw or grouped output. -/
def getFormattedTranscriptRun (format : TFormat) (maxSegments maxSentences : Nat)
    (api : ApiOutcomes) (now : Nat) (st : CacheState) :
    Except String (TranscriptOut × CacheState) := do
  let callResp ← api.callResult
  let call := callResp.call
  let tr ← api.transcriptsResult
  let segs := extractCallTranscript tr
  let (sm, st2) := getSpeakerMapRun (some call) api now st
  match format with
  | TFormat.raw => Except.ok (TranscriptOut.raw (buildRaw call sm segs), st2)
  | TFormat.concise =>
    Except.ok (TranscriptOut.formatted (buildFormatted call sm segs maxSegments maxSentences), st2)
  | TFormat.full =>
    Except.ok (TranscriptOut.formatted (buildFormatted call sm segs maxSegments maxSentences), st2)

/-! ### CallService (`src/services/call-service.ts`) -/

/-- The participants carried on a normalized call: either the raw call's
own participant records, or — after a successful transcript attach — the
participant list embedded in the transcript's call metadata. -/
inductive CallParticipants where
  | fromCall (l : List Participant)
  | fromTranscript (l : List FmtParticipant)
deriving DecidableEq, Repr

/-- A normalized call (`CallService.formatCall` output). -/
structure GongCall where
  id : String
  title : String
  scheduled : Option String
  started : Option String
  duration : Option Nat
  direction : Option String
  system : Option String
  scope : Option String
  media : Option String
  language : Option String
  url : Option String
  hasTranscript : Bool
  participants : CallParticipants
deriving DecidableEq, Repr

/-- `CallService.formatCall`: normalize a raw call record. -/
def formatCall (call : CallDetails) : GongCall :=
  { id := call.id
    title := jsOr call.title "Untitled Call"
    scheduled := call.scheduled
    started := jsOrOpt call.started call.startTime
    duration := call.duration
    direction := call.direction
    system := call.system
    scope := call.scope
    media := call.media
    language := call.language
    url := call.url
    hasTranscript := call.transcript.isSome
    participants := CallParticipants.fromCall (call.participants.getD []) }

/-- Parameters of the composite `CallService.getCall`. -/
structure GetCallParams where
  callId : String
  includeTranscript : Bool := false
  transcriptFormat : Option TFormat := none
  maxSegments : Option Nat := none
  maxSentences : Option Nat := none
deriving DecidableEq, Repr

/-- The composite result: normalized call plus optional transcript. -/
structure CallWithTranscript where
  call : GongCall
  transcript : Option TranscriptOut
deriving DecidableEq, Repr

/-- `CallService.getCall(params)`: fetch and normalize the call
(fail-loud); when `includeTranscript` is set, attempt the transcript
fetch+format, and on its failure still return with `transcript` omitted.
On success the call's `hasTranscript` is forced `true` and its
participants replaced by the transcript's call-metadata participants when
present. -/
def getCallRun (params : GetCallParams) (api : ApiOutcomes) (now : Nat)
    (st : CacheState) : Except String (CallWithTranscript × CacheState) :=
  match api.callResult with
  | Except.error e => Except.error e
  | Except.ok resp =>
    let call0 := formatCall resp.call
    if params.includeTranscript then
      match getFormattedTranscriptRun (params.transcriptFormat.getD TFormat.concise)
          (params.maxSegments.getD 0) (params.maxSentences.getD 0) api now st with
      | Except.error _ =>
        Except.ok ({ call := call0, transcript := none }, st)
      | Except.ok (t, st2) =>
        let call1 := { call0 with hasTranscript := true }
        let call2 :=
          match t with
          | TranscriptOut.formatted f =>
            match f.call.participants with
            | some ps => { call1 with participants := CallParticipants.fromTranscript ps }
            | none => call1
          | TranscriptOut.raw _ => call1
        Except.ok ({ call := call2, transcript := some t }, st2)
    else Except.ok ({ call := call0, transcript := none }, st)

/-! ### Observations used by the stated properties -/

/-- The texts of one section's exchanges, in exchange order. -/
def sectionTexts (sec : TSection) : List String :=
  sec.exchanges.map (fun e => e.text)

/-- Flatten a formatted transcript: all exchanges' texts in section
order, then exchange order. -/
def exchangeTexts (ft : FormattedTranscript) : List String :=
  ft.sections.flatMap sectionTexts

/-- The chronological texts of a transcript filtered only by the
`maxSegments`/`maxSentences` truncation: one concatenated text per
remaining segment, in original order. -/
def truncatedTexts (segs : List Segment) (maxSegments maxSentences : Nat) :
    List String :=
  (truncList maxSegments segs).map (fun s =>
    joinSpace ((truncList maxSentences s.sentences).map (fun sen => sen.text)))

/-- The flattened-texts observation of either output shape. -/
def outTexts : TranscriptOut → List String
  | TranscriptOut.formatted f => exchangeTexts f
  | TranscriptOut.raw _ => []

/-- The concatenation of all groups of a topic grouping, in group order. -/
def groupFlat (gs : List (String × List Segment)) : List Segment :=
  (gs.map Prod.snd).flatten

/-- The exact-id match criterion of `findUsers`. -/
def idCriterion (id : Option String) (u : GongUser) : Bool :=
  jsTruthy id && u.id == id.getD ""

/-- The name match criterion of `findUsers`: case-insensitive substring
of `"first last"`, or any whitespace token a substring of the first or
last name. -/
def nameCriterion (name : Option String) (u : GongUser) : Bool :=
  strIncludes (lowerStr (u.firstName ++ " " ++ u.lastName)) (lowerStr (name.getD "")) ||
    (splitSpaces (lowerStr (name.getD ""))).any (fun part =>
      strIncludes (lowerStr u.firstName) part ||
      strIncludes (lowerStr u.lastName) part)

/-- The email match criterion of `findUsers`: case-insensitive substring
of the user's email. -/
def emailCriterion (email : Option String) (u : GongUser) : Bool :=
  jsTruthy email && u.emailAddress != "" &&
    strIncludes (lowerStr u.emailAddress) (lowerStr (email.getD ""))

/-! ### Concrete instances -/

/-- A transcript segment referencing speaker `"zz9"`. -/
def zz9Seg : Segment := { speakerId := "zz9", sentences := [⟨0, "hello"⟩] }

/-- A call with an empty participant list. -/
def callA : CallDetails := { id := "c1", participants := some [] }

/-- A transcript response delivering `zz9Seg` under the response shape
the accessor actually produces (`callTranscripts`). -/
def trA : TranscriptsResp :=
  { callTranscripts := some [{ transcript := some [zz9Seg] }] }

/-- Accessor outcomes delivering `trA` with an empty directory. -/
def apiA : ApiOutcomes :=
  { callResult := Except.ok ⟨callA⟩
    transcriptsResult := Except.ok trA
    usersResult := Except.ok [] }

/-- The spec's two-speaker scenario: the call has participant `"p1"`
(Alice), the transcript references speakers `"p1"` and `"p2"`, and the
directory holds `"p2"` (Bob Lee). -/
def callB : CallDetails :=
  { id := "c2", participants := some [{ id := some "p1", name := some "Alice" }] }

/-- Accessor outcomes of the two-speaker scenario. -/
def apiB : ApiOutcomes :=
  { callResult := Except.ok ⟨callB⟩
    transcriptsResult := Except.ok
      { callTranscripts := some [{ transcript := some [{ speakerId := "p1" }, { speakerId := "p2" }] }] }
    usersResult := Except.ok [{ id := "p2", firstName := some "Bob", lastName := some "Lee" }] }

/-- The directory user of the C3 instance: name Alice A, email
`bob@x.com`. -/
def rawAlice : RawUser :=
  { id := "u1", firstName := some "Alice", lastName := some "A", emailAddress := some "bob@x.com" }

/-- Interleaved-topics segment 1: topic Alpha, text "x" at 0 ms. -/
def segX : Segment := { speakerId := "s1", topic := some "Alpha", sentences := [⟨0, "x"⟩] }

/-- Interleaved-topics segment 2: topic Beta, text "y" at 1000 ms. -/
def segY : Segment := { speakerId := "s1", topic := some "Beta", sentences := [⟨1000, "y"⟩] }

/-- Interleaved-topics segment 3: topic Alpha, text "z" at 2000 ms. -/
def segZ : Segment := { speakerId := "s1", topic := some "Alpha", sentences := [⟨2000, "z"⟩] }

/-- The call record of the interleaved-topics instance. -/
def callC : CallDetails := { id := "c4" }

/-- The transcript response of the interleaved-topics instance. -/
def trC : TranscriptsResp :=
  { callTranscripts := some [{ transcript := some [segX, segY, segZ] }] }

/-- Accessor outcomes of the interleaved-topics instance. -/
def apiC : ApiOutcomes :=
  { callResult := Except.ok ⟨callC⟩
    transcriptsResult := Except.ok trC
    usersResult := Except.ok [] }

/-- The speaker map resolved for the interleaved-topics instance. -/
def smC : SpeakerMap := (getSpeakerMapRun (some callC) apiC 0 ⟨[], 0⟩).1

/-- The cache state after resolving the interleaved-topics instance. -/
def stC : CacheState := (getSpeakerMapRun (some callC) apiC 0 ⟨[], 0⟩).2

/-- The formatted transcript of the interleaved-topics instance. -/
def ftC : FormattedTranscript :=
  buildFormatted callC smC (extractCallTranscript trC) 0 0

/-- Accessor outcomes whose call fetch fails. -/
def apiErrCall : ApiOutcomes :=
  { callResult := Except.error "boom"
    transcriptsResult := Except.ok trA
    usersResult := Except.ok [] }

/-- Accessor outcomes whose transcript fetch fails. -/
def apiErrTr : ApiOutcomes :=
  { callResult := Except.ok ⟨callA⟩
    transcriptsResult := Except.error "boom"
    usersResult := Except.ok [] }

/-- Accessor outcomes whose user-directory fetch fails. -/
def apiErrUsers : ApiOutcomes :=
  { callResult := Except.ok ⟨callA⟩
    transcriptsResult := Except.ok trA
    usersResult := Except.error "boom" }

/-! ### Helper lemmas -/

theorem perm_insertSorted (x : TSection) (l : List TSection) :
    List.Perm (insertSorted x l) (x :: l) := by
  induction l with
  | nil => simp [insertSorted]
  | cons y ys ih =>
    unfold insertSorted
    cases h : secLe x y with
    | true => simp
    | false =>
      simp only [Bool.false_eq_true, if_false]
      exact (List.Perm.cons y ih).trans (List.Perm.swap x y ys)

theorem perm_sortSections (l : List TSection) :
    List.Perm (sortSections l) l := by
  induction l with
  | nil => simp [sortSections]
  | cons x xs ih =>
    exact (perm_insertSorted x (sortSections xs)).trans (List.Perm.cons x ih)

theorem groupFlat_insertGrouped (t : String) (s : Segment)
    (gs : List (String × List Segment)) :
    List.Perm (groupFlat (insertGrouped t s gs)) (groupFlat gs ++ [s]) := by
  induction gs with
  | nil => simp [insertGrouped, groupFlat]
  | cons g rest ih =>
    obtain ⟨t2, ss⟩ := g
    unfold insertGrouped
    by_cases h : t2 = t
    · rw [if_pos h]
      show List.Perm ((ss ++ [s]) ++ groupFlat rest) ((ss ++ groupFlat rest) ++ [s])
      rw [List.append_assoc, List.append_assoc]
      exact List.Perm.append_left ss List.perm_append_comm
    · rw [if_neg h]
      show List.Perm (ss ++ groupFlat (insertGrouped t s rest))
        ((ss ++ groupFlat rest) ++ [s])
      rw [List.append_assoc]
      exact List.Perm.append_left ss ih

theorem groupFlat_foldl (segs : List Segment) :
    ∀ acc, List.Perm
      (groupFlat (segs.foldl (fun a s => insertGrouped (topicOf s) s a) acc))
      (groupFlat acc ++ segs) := by
  induction segs with
  | nil => intro acc; simp
  | cons s rest ih =>
    intro acc
    simp only [List.foldl_cons]
    refine (ih (insertGrouped (topicOf s) s acc)).trans ?_
    refine (List.Perm.append_right rest (groupFlat_insertGrouped (topicOf s) s acc)).trans ?_
    simp

theorem groupFlat_groupByTopic (segs : List Segment) :
    List.Perm (groupFlat (groupByTopic segs)) segs := by
  have h := groupFlat_foldl segs []
  simpa [groupByTopic, groupFlat] using h

theorem mkExchange_text (sm : SpeakerMap) (maxSentences : Nat) (seg : Segment) :
    (mkExchange sm maxSentences seg).text
      = joinSpace ((truncList maxSentences seg.sentences).map (fun s => s.text)) := by
  unfold mkExchange processSegment truncList
  simp only [List.length_map]
  by_cases h : 0 < maxSentences ∧ maxSentences < seg.sentences.length
  · simp [h, List.map_take, List.map_map, Function.comp_def]
  · simp [h, List.map_map, Function.comp_def]

theorem sectionTexts_mkSection (sm : SpeakerMap) (maxSentences : Nat)
    (g : String × List Segment) :
    sectionTexts (mkSection sm maxSentences g)
      = g.2.map (fun seg => (mkExchange sm maxSentences seg).text) := by
  simp [sectionTexts, mkSection, List.map_map, Function.comp]

theorem flatMap_map_local (f : α → β) (g : β → List γ) (l : List α) :
    (l.map f).flatMap g = l.flatMap (fun x => g (f x)) := by
  induction l <;> simp_all

theorem flatMap_snd_map (f : Segment → α) (gs : List (String × List Segment)) :
    gs.flatMap (fun g => g.2.map f) = (groupFlat gs).map f := by
  induction gs <;> simp_all [groupFlat]

theorem buildFormatted_texts_perm (call : CallDetails) (sm : SpeakerMap)
    (segs : List Segment) (maxSegments maxSentences : Nat) :
    List.Perm (exchangeTexts (buildFormatted call sm segs maxSegments maxSentences))
      (truncatedTexts segs maxSegments maxSentences) := by
  unfold exchangeTexts buildFormatted
  refine ((perm_sortSections _).flatMap_right sectionTexts).trans ?_
  rw [flatMap_map_local]
  simp only [sectionTexts_mkSection]
  rw [flatMap_snd_map]
  refine ((groupFlat_groupByTopic (truncList maxSegments segs)).map _).trans ?_
  simp only [mkExchange_text]
  exact List.Perm.refl _

/-! ### Claim theorems -/

/-- Claim C1, evaluated at the failing inputs: `getSpeakerMap` reads the
`transcripts` field of the transcript response, which the accessor never
populates (it returns `callTranscripts`, as `getFormattedTranscript` and
the repo's scripts read it), so the observed-speaker set is always empty.
At `apiA`, speaker `"zz9"` occurs in a transcript segment returned by the
accessor, is resolvable neither from participants nor from the directory,
yet gets no entry at all — the map comes back empty instead of containing
the synthesized `Person zz9` placeholder.  At `apiB` (the spec's own
scenario), transcript speaker `"p2"` is even resolvable from the
directory and still gets no entry: the map is not total over the observed
ids. -/
theorem speakerMap_omits_unresolvable_transcript_speaker :
    zz9Seg ∈ extractCallTranscript trA
  ∧ zz9Seg.speakerId = "zz9"
  ∧ mapLookup (getSpeakerMapRun none apiA 0 ⟨[], 0⟩).1 "zz9" = none
  ∧ (getSpeakerMapRun none apiA 0 ⟨[], 0⟩).1 = []
  ∧ mapLookup (getSpeakerMapRun none apiB 0 ⟨[], 0⟩).1 "p2" = none
  ∧ (getSpeakerMapRun none apiB 0 ⟨[], 0⟩).1.map Prod.fst = ["p1"] := by
  refine ⟨by decide, by decide, by decide, by decide, by decide, by decide⟩

/-- Claim C2: `getSpeakerMap` never throws: when any accessor call it performs
fails — the call fetch (only consulted when `callDetails` is not
supplied), the transcript fetch, or the user-directory fetch (only
consulted when the cache cannot serve) — it returns the empty map with
the cache state untouched. -/
theorem getSpeakerMap_fail_soft (cd : Option CallDetails) (api : ApiOutcomes)
    (now : Nat) (st : CacheState) :
    (∀ e, cd = none → api.callResult = Except.error e →
      getSpeakerMapRun cd api now st = ([], st))
  ∧ (∀ e, api.transcriptsResult = Except.error e →
      getSpeakerMapRun cd api now st = ([], st))
  ∧ (∀ e, api.usersResult = Except.error e → servesFromCache now st = false →
      getSpeakerMapRun cd api now st = ([], st)) := by
  refine ⟨?_, ?_, ?_⟩
  · intro e hcd hcall
    subst hcd
    simp [getSpeakerMapRun, getSpeakerMapAux, hcall, Bind.bind, Except.bind]
  · intro e htr
    unfold getSpeakerMapRun getSpeakerMapAux
    cases cd with
    | some c => simp [htr, Bind.bind, Except.bind]
    | none =>
      cases hc : api.callResult with
      | error f => simp [hc, Bind.bind, Except.bind]
      | ok r => simp [hc, htr, Bind.bind, Except.bind]
  · intro e hu hserve
    unfold getSpeakerMapRun getSpeakerMapAux
    have hget : getAllUsersRun false now api.usersResult st = Except.error e := by
      simp [getAllUsersRun, hserve, hu]
    cases cd with
    | some c =>
      cases htr : api.transcriptsResult with
      | error f => simp [htr, Bind.bind, Except.bind]
      | ok tr => simp [htr, hget, Bind.bind, Except.bind]
    | none =>
      cases hc : api.callResult with
      | error f => simp [hc, Bind.bind, Except.bind]
      | ok r =>
        cases htr : api.transcriptsResult with
        | error f => simp [hc, htr, Bind.bind, Except.bind]
        | ok tr => simp [hc, htr, hget, Bind.bind, Except.bind]

/-- Witness for C2 at concrete failing accessors. -/
theorem getSpeakerMap_fail_soft_witness :
    getSpeakerMapRun none apiErrCall 0 ⟨[], 0⟩ = ([], ⟨[], 0⟩)
  ∧ getSpeakerMapRun (some callA) apiErrTr 0 ⟨[], 0⟩ = ([], ⟨[], 0⟩)
  ∧ getSpeakerMapRun (some callA) apiErrUsers 0 ⟨[], 0⟩ = ([], ⟨[], 0⟩) :=
  ⟨(getSpeakerMap_fail_soft none apiErrCall 0 ⟨[], 0⟩).1 "boom" rfl rfl,
   (getSpeakerMap_fail_soft (some callA) apiErrTr 0 ⟨[], 0⟩).2.1 "boom" rfl,
   (getSpeakerMap_fail_soft (some callA) apiErrUsers 0 ⟨[], 0⟩).2.2 "boom" rfl
     (by decide)⟩

theorem findPred_eq (name email id : Option String) (u : GongUser) :
    findPred name email id u
      = (idCriterion id u ||
          (if jsTruthy name then nameCriterion name u else emailCriterion email u)) := by
  unfold findPred idCriterion nameCriterion emailCriterion
  cases hid : jsTruthy id && u.id == id.getD "" with
  | true => simp
  | false =>
    cases hname : jsTruthy name with
    | true => simp [hname]
    | false =>
      cases hmail : jsTruthy email && u.emailAddress != "" &&
          strIncludes (lowerStr u.emailAddress) (lowerStr (email.getD "")) with
      | true => simp [hname, hmail, Bool.and_assoc]
      | false => simp [hname, hmail, Bool.and_assoc]

/-- Claim C3 counterexample: the directory holds a user whose email matches the
supplied `email` criterion, but a supplied non-matching `name` excludes
the user — the result is empty although one supplied criterion matches,
so matching is not inclusive-OR across name and email. -/
theorem findUsers_name_shadows_email :
    strIncludes (lowerStr "bob@x.com") (lowerStr "bob") = true
  ∧ findUsersRun (some "zzz") (some "bob") none 0 (Except.ok [rawAlice]) ⟨[], 0⟩
      = Except.ok ([], ⟨[("u1", processUser rawAlice)], 0⟩) := by
  refine ⟨by decide, by decide⟩

/-- Claim C3 amended: when `id` is supplied and present in the cache the result
short-circuits to that single user; otherwise a user is included iff the
id matches exactly, or — when `name` is supplied — the name criterion
matches; the email criterion is consulted only when no name was
supplied. -/
theorem findUsers_match_semantics (name email id : Option String) (now : Nat)
    (fetchResult : Except String (List RawUser)) (st : CacheState)
    (allUsers : List GongUser) (st2 : CacheState) (fetched : Bool)
    (h : getAllUsersRun false now fetchResult st = Except.ok (allUsers, st2, fetched)) :
    (∀ u, jsTruthy id = true → mapLookup st2.userCache (id.getD "") = some u →
      findUsersRun name email id now fetchResult st = Except.ok ([u], st2))
  ∧ ((jsTruthy id = true → mapLookup st2.userCache (id.getD "") = none) →
      findUsersRun name email id now fetchResult st
        = Except.ok (allUsers.filter (fun u =>
            idCriterion id u ||
              (if jsTruthy name then nameCriterion name u
               else emailCriterion email u)), st2)) := by
  constructor
  · intro u hid hget
    simp [findUsersRun, h, hid, hget]
  · intro hmiss
    have hf : allUsers.filter (findPred name email id)
        = allUsers.filter (fun u =>
            idCriterion id u ||
              (if jsTruthy name then nameCriterion name u
               else emailCriterion email u)) :=
      List.filter_congr (fun u _ => findPred_eq name email id u)
    cases hid : jsTruthy id with
    | true =>
      have hget := hmiss hid
      simp only [findUsersRun, h, hid, hget, if_true]
      rw [hf]
    | false =>
      simp only [findUsersRun, h, hid, Bool.false_eq_true, if_false]
      rw [hf]

/-- Witness for C3's amended theorem: an email-only search returns the
filter of the fetched directory under the amended OR semantics. -/
theorem findUsers_match_semantics_witness :
    findUsersRun none (some "bob") none 0 (Except.ok [rawAlice]) ⟨[], 0⟩
      = Except.ok ([processUser rawAlice].filter (fun u =>
          idCriterion none u ||
            (if jsTruthy none then nameCriterion none u
             else emailCriterion (some "bob") u)),
          ⟨[("u1", processUser rawAlice)], 0⟩) :=
  (findUsers_match_semantics none (some "bob") none 0 (Except.ok [rawAlice])
    ⟨[], 0⟩ [processUser rawAlice] ⟨[("u1", processUser rawAlice)], 0⟩ true
    (by decide)).2 (by intro hab; exact absurd hab (by decide))

/-- Claim C4 counterexample: with segments of interleaved topics Alpha, Beta,
Alpha (texts "x", "y", "z" in chronological order), flattening the
grouped output yields "x", "z", "y" — grouping coalesces the two
non-adjacent Alpha segments, so the original order is not reproduced. -/
theorem grouped_flatten_not_chronological :
    (getFormattedTranscriptRun TFormat.concise 0 0 apiC 0 ⟨[], 0⟩).map
      (fun r => outTexts r.1) = Except.ok ["x", "z", "y"]
  ∧ truncatedTexts (extractCallTranscript trC) 0 0 = ["x", "y", "z"]
  ∧ (["x", "z", "y"] : List String) ≠ ["x", "y", "z"] := by
  refine ⟨by decide, by decide, by decide⟩

/-- Claim C4 amended: flattening the sections of the non-raw output is a
permutation of the truncated original chronological texts — no segment
text is lost or duplicated, the order within a topic is preserved, but
interleaved topics are coalesced (and sections re-sorted), so the overall
chronological order is not preserved in general. -/
theorem grouped_flatten_is_permutation (fmt : TFormat) (maxSegments maxSentences : Nat)
    (api : ApiOutcomes) (now : Nat) (st : CacheState) (ft : FormattedTranscript)
    (st2 : CacheState) (tr : TranscriptsResp)
    (htr : api.transcriptsResult = Except.ok tr)
    (hrun : getFormattedTranscriptRun fmt maxSegments maxSentences api now st
      = Except.ok (TranscriptOut.formatted ft, st2)) :
    List.Perm (exchangeTexts ft)
      (truncatedTexts (extractCallTranscript tr) maxSegments maxSentences) := by
  unfold getFormattedTranscriptRun at hrun
  cases hc : api.callResult with
  | error e => simp [hc, Bind.bind, Except.bind] at hrun
  | ok resp =>
    rw [hc, htr] at hrun
    simp only [Bind.bind, Except.bind] at hrun
    cases fmt with
    | raw => simp at hrun
    | concise =>
      simp only [Except.ok.injEq, Prod.mk.injEq, TranscriptOut.formatted.injEq] at hrun
      rw [← hrun.1]
      exact buildFormatted_texts_perm _ _ _ _ _
    | full =>
      simp only [Except.ok.injEq, Prod.mk.injEq, TranscriptOut.formatted.injEq] at hrun
      rw [← hrun.1]
      exact buildFormatted_texts_perm _ _ _ _ _

/-- Witness for C4's amended theorem at the interleaved-topics instance. -/
theorem grouped_flatten_is_permutation_witness :
    List.Perm (exchangeTexts ftC)
      (truncatedTexts (extractCallTranscript trC) 0 0) :=
  grouped_flatten_is_permutation TFormat.concise 0 0 apiC 0 ⟨[], 0⟩ ftC stC trC
    (by decide) (by decide)

/-- Claim C5: when the call fetch succeeds but the transcript fetch-and-format
fails, the composite `getCall` with `includeTranscript` still returns
successfully, carrying the normalized call with the `transcript` field
omitted — the transcript failure is never propagated. -/
theorem getCall_isolates_transcript_failure (params : GetCallParams)
    (api : ApiOutcomes) (now : Nat) (st : CacheState) (resp : CallResp) (e : String)
    (hinc : params.includeTranscript = true)
    (hcall : api.callResult = Except.ok resp)
    (hfail : getFormattedTranscriptRun (params.transcriptFormat.getD TFormat.concise)
      (params.maxSegments.getD 0) (params.maxSentences.getD 0) api now st
      = Except.error e) :
    getCallRun params api now st
      = Except.ok ({ call := formatCall resp.call, transcript := none }, st) := by
  unfold getCallRun
  rw [hcall]
  simp [hinc, hfail]

/-- Witness for C5: transcript fetch fails, composite still succeeds. -/
theorem getCall_isolates_transcript_failure_witness :
    getCallRun { callId := "c1", includeTranscript := true } apiErrTr 0 ⟨[], 0⟩
      = Except.ok ({ call := formatCall callA, transcript := none }, ⟨[], 0⟩) :=
  getCall_isolates_transcript_failure
    { callId := "c1", includeTranscript := true } apiErrTr 0 ⟨[], 0⟩ ⟨callA⟩ "boom"
    rfl rfl (by decide)

/-- Claim C6 counterexample: a refresh that stored zero users records the
refresh timestamp, yet the very next `getAllUsers(false)` call, well
within the TTL window, invokes the accessor again (third component
`true`) instead of returning the cached snapshot without a fetch. -/
theorem getAllUsers_empty_snapshot_refetches :
    getAllUsersRun false 100 (Except.ok []) ⟨[], 0⟩
      = Except.ok ([], ⟨[], 100⟩, true)
  ∧ (101 : Nat) - 100 < cacheExpiryMs
  ∧ getAllUsersRun false 101 (Except.ok [rawAlice]) ⟨[], 100⟩
      = Except.ok ([processUser rawAlice], ⟨[("u1", processUser rawAlice)], 101⟩, true) := by
  refine ⟨by decide, by decide, by decide⟩

/-- Claim C6 amended: provided the cached snapshot is non-empty, a second
`getAllUsers(false)` within the TTL window returns the cached snapshot
without invoking the accessor; after TTL expiry, or with `forceRefresh`,
it performs the refetch, replaces the cache wholesale and records the
refresh timestamp.  (An empty snapshot is refetched even within the TTL
window.) -/
theorem getAllUsers_ttl_contract (st : CacheState) (now : Nat) :
    (∀ fetchResult, st.userCache ≠ [] →
      now - st.lastCacheUpdate < cacheExpiryMs →
      getAllUsersRun false now fetchResult st
        = Except.ok (st.userCache.map Prod.snd, st, false))
  ∧ (∀ force raw, cacheExpiryMs ≤ now - st.lastCacheUpdate ∨ force = true →
      getAllUsersRun force now (Except.ok raw) st
        = Except.ok (raw.map processUser, ⟨buildCacheList raw, now⟩, true)) := by
  constructor
  · intro fetchResult hne hfresh
    have hlen : 0 < st.userCache.length := List.length_pos.mpr hne
    simp [getAllUsersRun, servesFromCache, hlen, hfresh]
  · intro force raw hstale
    cases hstale with
    | inl hts =>
      have hnot : ¬ (now - st.lastCacheUpdate < cacheExpiryMs) := not_lt.mpr hts
      simp [getAllUsersRun, servesFromCache, hnot]
    | inr hforce =>
      subst hforce
      simp [getAllUsersRun]

/-- Witness for C6's amended theorem: a fresh non-empty cache is served
without a fetch; a forced refresh refetches and re-stamps. -/
theorem getAllUsers_ttl_contract_witness :
    getAllUsersRun false 101 (Except.ok []) ⟨[("u1", processUser rawAlice)], 100⟩
      = Except.ok ([processUser rawAlice], ⟨[("u1", processUser rawAlice)], 100⟩, false)
  ∧ getAllUsersRun true 101 (Except.ok [rawAlice]) ⟨[("u1", processUser rawAlice)], 100⟩
      = Except.ok ([processUser rawAlice], ⟨buildCacheList [rawAlice], 101⟩, true) :=
  ⟨by
    have h := (getAllUsers_ttl_contract ⟨[("u1", processUser rawAlice)], 100⟩ 101).1
      (Except.ok []) (by decide) (by decide)
    simpa using h,
   (getAllUsers_ttl_contract ⟨[("u1", processUser rawAlice)], 100⟩ 101).2
    true [rawAlice] (Or.inr rfl)⟩

/-- Claim C7 counterexample: a raw user with no `title` but a `role` field is
normalized with `title = "Manager"`, not the empty string — `title`
falls back to `role` before defaulting. -/
theorem processUser_title_role_fallback :
    (processUser { id := "u1", role := some "Manager" }).title = "Manager"
  ∧ ("Manager" : String) ≠ "" := by
  refine ⟨by decide, by decide⟩

/-- Claim C7 amended: normalization defaults `firstName`/`lastName`/`created`
to the empty string, lets `emailAddress` fall back to the `email` field,
lets `title` fall back to the `role` field before defaulting to the
empty string, and sets `active` false exactly when the raw field is
explicitly `false`. -/
theorem processUser_normalizes (u : RawUser) :
    (processUser u).id = u.id
  ∧ (processUser u).firstName = u.firstName.getD ""
  ∧ (processUser u).lastName = u.lastName.getD ""
  ∧ (processUser u).emailAddress =
      (match u.emailAddress with
       | some s => if s = "" then u.email.getD "" else s
       | none => u.email.getD "")
  ∧ (processUser u).title =
      (match u.title with
       | some s => if s = "" then u.role.getD "" else s
       | none => u.role.getD "")
  ∧ ((processUser u).active = false ↔ u.active = some false)
  ∧ (processUser u).created = u.created.getD "" := by
  unfold processUser
  refine ⟨rfl, ?_, ?_, ?_, ?_, ?_, ?_⟩
  · cases h : u.firstName with
    | none => rfl
    | some s => by_cases hs : s = "" <;> simp [jsOr, hs]
  · cases h : u.lastName with
    | none => rfl
    | some s => by_cases hs : s = "" <;> simp [jsOr, hs]
  · cases h : u.emailAddress with
    | none =>
      cases h2 : u.email with
      | none => rfl
      | some t => by_cases ht : t = "" <;> simp [jsOr, ht]
    | some s =>
      by_cases hs : s = ""
      · cases h2 : u.email with
        | none => simp [jsOr, hs]
        | some t => by_cases ht : t = "" <;> simp [jsOr, hs, ht]
      · simp [jsOr, hs]
  · cases h : u.title with
    | none =>
      cases h2 : u.role with
      | none => rfl
      | some t => by_cases ht : t = "" <;> simp [jsOr, ht]
    | some s =>
      by_cases hs : s = ""
      · cases h2 : u.role with
        | none => simp [jsOr, hs]
        | some t => by_cases ht : t = "" <;> simp [jsOr, hs, ht]
      · simp [jsOr, hs]
  · cases h : u.active with
    | none => simp
    | some b => cases b <;> simp
  · cases h : u.created with
    | none => rfl
    | some s => by_cases hs : s = "" <;> simp [jsOr, hs]

/-- Claim C8: the `"concise"` and `"full"` formats follow the same grouping
path and are observationally identical for every input. -/
theorem concise_full_identical (maxSegments maxSentences : Nat)
    (api : ApiOutcomes) (now : Nat) (st : CacheState) :
    getFormattedTranscriptRun TFormat.concise maxSegments maxSentences api now st
      = getFormattedTranscriptRun TFormat.full maxSegments maxSentences api now st := by
  unfold getFormattedTranscriptRun
  cases api.callResult with
  | error e => rfl
  | ok resp =>
    cases api.transcriptsResult with
    | error e => rfl
    | ok tr => rfl

/-- Claim C9: a transcript segment whose speaker id is absent from the speaker
map is rendered with the formatter-local placeholder `Speaker <first 8
chars>` / `Unknown` / `Unknown`; the raw output renders every segment via
`processSegment`, and a grouped exchange carries exactly the processed
segment's speaker — so both outputs show this placeholder. -/
theorem processSegment_placeholder (sm : SpeakerMap) (seg : Segment)
    (h : mapLookup sm seg.speakerId = none) :
    (processSegment sm seg).speaker =
      { name := "Speaker " ++ takeStr 8 seg.speakerId
        company := some "Unknown"
        role := some "Unknown" }
  ∧ (∀ call segs, (buildRaw call sm segs).transcript = segs.map (processSegment sm))
  ∧ (∀ maxSentences, (mkExchange sm maxSentences seg).speaker
      = (processSegment sm seg).speaker) := by
  refine ⟨?_, fun call segs => rfl, fun maxSentences => rfl⟩
  simp [processSegment, h]

/-- Witness for C9 at the `"zz9"` segment and an empty speaker map. -/
theorem processSegment_placeholder_witness :
    (processSegment [] zz9Seg).speaker =
      { name := "Speaker " ++ takeStr 8 zz9Seg.speakerId
        company := some "Unknown"
        role := some "Unknown" } :=
  (processSegment_placeholder [] zz9Seg (by decide)).1

/-- Claim C10: when the last refresh stored zero users the cache guard fails,
so `getAllUsers(false)` consults the accessor on every call regardless of
the TTL window — an empty snapshot is never served from cache. -/
theorem getAllUsers_never_serves_empty (st : CacheState) (now : Nat)
    (h : st.userCache = []) :
    (∀ raw, getAllUsersRun false now (Except.ok raw) st
      = Except.ok (raw.map processUser, ⟨buildCacheList raw, now⟩, true))
  ∧ (∀ e, getAllUsersRun false now (Except.error e) st = Except.error e) := by
  have hserve : servesFromCache now st = false := by
    simp [servesFromCache, h]
  constructor
  · intro raw
    simp [getAllUsersRun, hserve]
  · intro e
    simp [getAllUsersRun, hserve]

/-- Witness for C10: a fresh-but-empty cache is bypassed. -/
theorem getAllUsers_never_serves_empty_witness :
    getAllUsersRun false 1 (Except.ok [rawAlice]) ⟨[], 0⟩
      = Except.ok ([processUser rawAlice], ⟨buildCacheList [rawAlice], 1⟩, true) :=
  (getAllUsers_never_serves_empty ⟨[], 0⟩ 1 rfl).1 [rawAlice]

end GongCloud
